import Mathlib

/-!
Verification of the GebeyaAlert price-alert system.

The repository is a Next.js frontend for a price-tracking and alerting tool.
The alert-evaluation and notification-dispatch core is described in the spec
but its backend implementation is not among the provided sources; those
components are modelled here from the spec text.  The frontend utilities
(phone-number normalization, price-history filtering, target-price
adjustment) are embedded directly from the TypeScript sources.

Numbers: prices are modelled as rationals, dates and timestamps as integers.
-/

namespace GebeyaAlert

/-- Modelled from the spec: a PriceObservation is
{crop_id, market_id, price (decimal), observed_date}. -/
structure PriceObservation where
  crop_id : Nat
  market_id : Nat
  price : Rat
  observed_date : Nat
deriving Repr, DecidableEq

/-- Alert record as declared in src/frontend/src/app/alerts/page.tsx and in
the spec data model: {id, user_id, crop_id, market_id, target_price,
is_met, last_sent_at, created_at}.  last_sent_at is a nullable timestamp. -/
structure Alert where
  id : Nat
  user_id : Nat
  crop_id : Nat
  market_id : Nat
  target_price : Rat
  is_met : Bool
  last_sent_at : Option Nat
  created_at : Nat
deriving Repr, DecidableEq

/-- Modelled from the spec: an alert is relevant to an observation when the
(crop_id, market_id) pairs coincide. -/
def alertMatches (a : Alert) (o : PriceObservation) : Bool :=
  a.crop_id == o.crop_id && a.market_id == o.market_id

/-- Modelled from the spec (section 4.1): the per-alert action of the
Evaluator.  For a matching alert, is_met is recomputed as
(observation price is at most target_price, ties count as met); the second
component is true exactly when is_met flips from false to true in this call
(a transition is emitted).  Non-matching alerts are untouched. -/
def evalAlert (o : PriceObservation) (a : Alert) : Alert × Bool :=
  if alertMatches a o then
    let newMet : Bool := decide (o.price ≤ a.target_price)
    ({ a with is_met := newMet }, !a.is_met && newMet)
  else
    (a, false)

/-- Modelled from the spec (section 4.1): evaluate(observation) scans all
alerts of the registry, recomputes is_met for the matching ones, and emits
the list of ids of alerts whose is_met flipped from false to true. -/
def evaluate (reg : List Alert) (o : PriceObservation) : List Alert × List Nat :=
  let results := reg.map (evalAlert o)
  (results.map Prod.fst, (results.filter (fun r => r.2)).map (fun r => r.1.id))

/-- Modelled from the spec: one combined Evaluator/Dispatcher step for a
single alert.  The observation is evaluated; when a transition is emitted
the Dispatcher sends one notification and records the outcome by writing
last_sent_at on the registry entry (sends are taken successful here; the
failure path is modelled separately by `dispatch`).  Returns the updated
alert, whether a notification was dispatched in this step, and how many
times last_sent_at was written in this step. -/
def stepAlert (now : Nat) (a : Alert) (o : PriceObservation) : Alert × Bool × Nat :=
  let r := evalAlert o a
  if r.2 then ({ r.1 with last_sent_at := some now }, true, 1) else (r.1, false, 0)

/-- Modelled from the spec: a run of Evaluator/Dispatcher steps for a single
alert over a sequence of observations.  Returns the final alert, the total
number of notification dispatches, and the total number of last_sent_at
writes. -/
def runAlert (now : Nat) (a : Alert) : List PriceObservation → Alert × Nat × Nat
  | [] => (a, 0, 0)
  | o :: rest =>
    let s := stepAlert now a o
    let r := runAlert now s.1 rest
    (r.1, (if s.2.1 then 1 else 0) + r.2.1, s.2.2 + r.2.2)

/-- Modelled from the spec: the trace of is_met values of an alert along a
sequence of Evaluator steps (the value after each step, in order). -/
def metTrace (a : Alert) : List PriceObservation → List Bool
  | [] => []
  | o :: rest =>
    let a1 := (evalAlert o a).1
    a1.is_met :: metTrace a1 rest

/-- Number of false-to-true transitions in a Boolean trace, given the value
before the trace starts. -/
def countFlips (b : Bool) : List Bool → Nat
  | [] => 0
  | x :: xs => (if !b && x then 1 else 0) + countFlips x xs

/-- Modelled from the spec (section 5): the atomic flip-and-claim on one
alert row, a compare-and-swap.  The caller that finds the alert unmet flips
is_met to true and wins the claim (returns true, and proceeds to dispatch);
any caller that finds it already met loses silently (returns false, no
error).  Atomicity means any concurrent execution of two claims is one of
the two sequential orders. -/
def claimAlert (reg : List Alert) (i : Nat) : List Alert × Bool :=
  match reg.find? (fun b => b.id == i) with
  | none => (reg, false)
  | some a =>
    if a.is_met then (reg, false)
    else (reg.map (fun b => if b.id == i then { b with is_met := true } else b), true)

/-- Modelled from the spec (section 4.2): possible outcomes of one SMS send
attempt against the gateway. -/
inductive SendOutcome where
  | success
  | transient
  | permanent
deriving Repr, DecidableEq

/-- Modelled from the spec (section 4.2): the observable result of a
dispatch call: whether delivery was confirmed, how many send attempts were
made, the backoff delays waited between attempts, the last_sent_at value
written (only on confirmed send), and whether an error was surfaced for
operator visibility. -/
structure DispatchResult where
  delivered : Bool
  attempts : Nat
  delays : List Nat
  last_sent_at : Option Nat
  errorSurfaced : Bool
deriving Repr, DecidableEq

/-- Modelled from the spec (section 4.2): the retry loop of the Dispatcher,
attempting sends starting from attempt number k with the given remaining
attempt budget.  A successful send writes last_sent_at and stops; a
permanent failure (invalid phone number) surfaces an error and stops
without writing; a transient failure waits an exponentially growing backoff
delay (base times 2 to the attempt number) and retries while budget
remains; an exhausted budget surfaces an error. -/
def dispatchFrom (outcomes : Nat → SendOutcome) (base now : Nat) :
    Nat → Nat → DispatchResult
  | _, 0 => ⟨false, 0, [], none, true⟩
  | k, fuel + 1 =>
    match outcomes k with
    | SendOutcome.success => ⟨true, 1, [], some now, false⟩
    | SendOutcome.permanent => ⟨false, 1, [], none, true⟩
    | SendOutcome.transient =>
      let r := dispatchFrom outcomes base now (k + 1) fuel
      ⟨r.delivered, r.attempts + 1, base * 2 ^ k :: r.delays, r.last_sent_at,
        r.errorSurfaced⟩

/-- Modelled from the spec (section 4.2): dispatch(transition) with a
bounded number of attempts.  The outcomes function gives the result of each
numbered send attempt. -/
def dispatch (outcomes : Nat → SendOutcome) (maxAttempts base now : Nat) :
    DispatchResult :=
  dispatchFrom outcomes base now 0 maxAttempts

/-- Modelled from the spec (section 6): the inbound payload of the price
ingestion endpoint, (crop_id, market_id, price, date), before decoding.  A
field that failed to decode is absent. -/
structure RawObservation where
  crop_id : Option Nat
  market_id : Option Nat
  price : Option Rat
  observed_date : Option Nat
deriving Repr, DecidableEq

/-- Modelled from the spec (sections 6 and 7): a raw observation is well
formed when every field decoded. -/
def wellFormed (r : RawObservation) : Bool :=
  r.crop_id.isSome && r.market_id.isSome && r.price.isSome && r.observed_date.isSome

/-- Modelled from the spec (sections 6 and 7): ingestion of a raw
observation into the Price Store.  A malformed observation is rejected with
a ValidationError and not persisted; a well-formed one is persisted.  The
first component is the resulting store. -/
def ingest (store : List PriceObservation) (r : RawObservation) :
    List PriceObservation × Except String PriceObservation :=
  match r.crop_id, r.market_id, r.price, r.observed_date with
  | some c, some m, some p, some d =>
    (store ++ [⟨c, m, p, d⟩], Except.ok ⟨c, m, p, d⟩)
  | _, _, _, _ => (store, Except.error "ValidationError")

/-- Embedded from src/frontend/src/utils/phone.ts, lines 6 to 11 of
normalizePhoneNumber: remove every character that is neither a digit nor a
plus sign (the regex replace), then strip one leading plus sign when
present. -/
def cleanedPhone (phone : String) : List Char :=
  let cleaned0 := phone.data.filter (fun c => c.isDigit || c == '+')
  match cleaned0 with
  | '+' :: rest => rest
  | _ => cleaned0

/-- Embedded from src/frontend/src/utils/phone.ts, normalizePhoneNumber:
cleans the input, then normalizes to +251 format, throwing on any remaining
shape. -/
def normalizePhoneNumber (phone : String) : Except String String :=
  let cleaned := cleanedPhone phone
  if cleaned.take 3 = ['2', '5', '1'] then
    Except.ok (String.mk ('+' :: cleaned))
  else if cleaned.take 1 = ['0'] then
    Except.ok (String.mk ('+' :: '2' :: '5' :: '1' :: cleaned.drop 1))
  else if cleaned.length = 9 then
    Except.ok (String.mk ('+' :: '2' :: '5' :: '1' :: cleaned))
  else
    Except.error ("Invalid phone number format: " ++ phone)

/-- Embedded from src/frontend/src/utils/phone.ts, validatePhoneNumber:
true exactly when normalizePhoneNumber does not throw. -/
def validatePhoneNumber (phone : String) : Bool :=
  match normalizePhoneNumber phone with
  | Except.ok _ => true
  | Except.error _ => false

/-- Price record as declared in src/frontend/src/app/history/page.tsx; the
price_date string is modelled by its timestamp in milliseconds. -/
structure PriceData where
  id : Nat
  crop_id : Nat
  market_id : Nat
  price : Rat
  price_date : Int
deriving Repr, DecidableEq

/-- Milliseconds in one day. -/
def msPerDay : Int := 86400000

/-- Embedded from src/frontend/src/app/history/page.tsx, the client-side
post-processing inside fetchPriceHistory: keep the fetched records whose
date lies between (now minus timeRange days) and now, both ends inclusive,
and sort them by ascending date (the JavaScript comparator subtracts
timestamps). -/
def fetchPriceHistoryPost (now : Int) (timeRange : Nat) (prices : List PriceData) :
    List PriceData :=
  let startDate := now - timeRange * msPerDay
  let filtered := prices.filter
    (fun p => decide (startDate ≤ p.price_date) && decide (p.price_date ≤ now))
  filtered.mergeSort (fun a b => decide (a.price_date ≤ b.price_date))

/-- Embedded from src/frontend/src/app/alerts/new/page.tsx, the JavaScript
Math.round: nearest integer, halves toward positive infinity. -/
def jsRound (x : Rat) : Int :=
  ⌊x + 1 / 2⌋

/-- Rounding to two decimal places the way the page does it:
Math.round(x * 100) / 100. -/
def roundTo2 (x : Rat) : Rat :=
  (jsRound (x * 100) : Rat) / 100

/-- Embedded from src/frontend/src/app/alerts/new/page.tsx, adjustPrice:
the updater passed to setTargetPrice, computing
Math.max(0, Math.round((prev + delta) * 100) / 100). -/
def adjustPrice (prev delta : Rat) : Rat :=
  max 0 (roundTo2 (prev + delta))

/-! Helper lemmas about the Evaluator. -/

lemma evalAlert_fields (o : PriceObservation) (a : Alert) :
    (evalAlert o a).1.id = a.id ∧ (evalAlert o a).1.user_id = a.user_id ∧
    (evalAlert o a).1.crop_id = a.crop_id ∧ (evalAlert o a).1.market_id = a.market_id ∧
    (evalAlert o a).1.target_price = a.target_price ∧
    (evalAlert o a).1.last_sent_at = a.last_sent_at ∧
    (evalAlert o a).1.created_at = a.created_at := by
  unfold evalAlert
  split <;> simp

lemma evalAlert_matches_inv (o o2 : PriceObservation) (a : Alert) :
    alertMatches (evalAlert o a).1 o2 = alertMatches a o2 := by
  unfold alertMatches
  rw [(evalAlert_fields o a).2.2.1, (evalAlert_fields o a).2.2.2.1]

lemma evalAlert_of_matches (o : PriceObservation) (a : Alert)
    (hm : alertMatches a o = true) :
    (evalAlert o a).1 = { a with is_met := decide (o.price ≤ a.target_price) } ∧
    (evalAlert o a).2 = (!a.is_met && decide (o.price ≤ a.target_price)) := by
  unfold evalAlert
  simp [hm]

lemma evalAlert_flag (o : PriceObservation) (a : Alert) :
    (evalAlert o a).2 = (!a.is_met && (evalAlert o a).1.is_met) := by
  unfold evalAlert
  split
  · simp
  · simp [Bool.and_not_self]

lemma evaluate_fst (reg : List Alert) (o : PriceObservation) :
    (evaluate reg o).1 = reg.map (fun a => (evalAlert o a).1) := by
  simp [evaluate, List.map_map, Function.comp_def]

lemma mem_evaluate_snd_of_flag (reg : List Alert) (o : PriceObservation) (a : Alert)
    (ha : a ∈ reg) (hf : (evalAlert o a).2 = true) :
    a.id ∈ (evaluate reg o).2 := by
  unfold evaluate
  simp only [List.mem_map, List.mem_filter]
  exact ⟨evalAlert o a, ⟨⟨a, ha, rfl⟩, hf⟩, (evalAlert_fields o a).1⟩

lemma evalAlert_idem (o : PriceObservation) (a : Alert) :
    evalAlert o (evalAlert o a).1 = ((evalAlert o a).1, false) := by
  by_cases hm : alertMatches a o = true
  · have hm1 : alertMatches (evalAlert o a).1 o = true := by
      rw [evalAlert_matches_inv]; exact hm
    have e1 := evalAlert_of_matches o a hm
    have e2 := evalAlert_of_matches o (evalAlert o a).1 hm1
    have htp := (evalAlert_fields o a).2.2.2.2.1
    have hmet : (evalAlert o a).1.is_met = decide (o.price ≤ a.target_price) := by
      rw [e1.1]
    refine Prod.ext ?_ ?_
    · show (evalAlert o (evalAlert o a).1).1 = (evalAlert o a).1
      rw [e2.1, htp, e1.1]
    · show (evalAlert o (evalAlert o a).1).2 = false
      rw [e2.2, htp, hmet]
      simp
  · have h0 : evalAlert o a = (a, false) := by
      unfold evalAlert
      simp [hm]
    rw [h0]
    exact h0

/-- Claim C1: the Evaluator marks a matching alert met exactly when the
observed price is at most the target price; a tie counts as met, and the
alert is left unmet for any observation strictly above the target. -/
theorem evaluator_met_iff_price_le_target (reg : List Alert) (o : PriceObservation)
    (a : Alert) (ha : a ∈ reg) (hm : alertMatches a o = true) :
    (evalAlert o a).1 ∈ (evaluate reg o).1 ∧
    ((evalAlert o a).1.is_met = true ↔ o.price ≤ a.target_price) := by
  refine ⟨?_, ?_⟩
  · rw [evaluate_fst]
    exact List.mem_map.mpr ⟨a, ha, rfl⟩
  · rw [(evalAlert_of_matches o a hm).1]
    simp

/-- Witness for C1: an alert with target 100 becomes met on a tie
observation of exactly 100 for its crop and market. -/
theorem evaluator_met_iff_price_le_target_witness :
    ((⟨1, 7, 2, 3, 100, false, none, 0⟩ : Alert) ∈
        [(⟨1, 7, 2, 3, 100, false, none, 0⟩ : Alert)]) ∧
    ((evalAlert ⟨2, 3, 100, 5⟩ ⟨1, 7, 2, 3, 100, false, none, 0⟩).1 ∈
        (evaluate [⟨1, 7, 2, 3, 100, false, none, 0⟩] ⟨2, 3, 100, 5⟩).1 ∧
      ((evalAlert ⟨2, 3, 100, 5⟩ ⟨1, 7, 2, 3, 100, false, none, 0⟩).1.is_met = true ↔
        (⟨2, 3, 100, 5⟩ : PriceObservation).price ≤
          (⟨1, 7, 2, 3, 100, false, none, 0⟩ : Alert).target_price)) :=
  ⟨by decide,
    evaluator_met_iff_price_le_target [⟨1, 7, 2, 3, 100, false, none, 0⟩]
      ⟨2, 3, 100, 5⟩ ⟨1, 7, 2, 3, 100, false, none, 0⟩ (by decide) (by decide)⟩

/-- Claim C3: evaluate is idempotent; re-evaluating the same observation on
the registry it just produced changes nothing and emits no transitions. -/
theorem evaluate_idempotent (reg : List Alert) (o : PriceObservation) :
    evaluate (evaluate reg o).1 o = ((evaluate reg o).1, []) := by
  rw [evaluate_fst]
  unfold evaluate
  rw [List.map_map]
  have hmap : reg.map (evalAlert o ∘ fun a => (evalAlert o a).1) =
      reg.map (fun a => ((evalAlert o a).1, false)) :=
    List.map_congr_left (fun a _ => evalAlert_idem o a)
  rw [hmap]
  refine Prod.ext ?_ ?_
  · simp [List.map_map, Function.comp_def]
  · simp [List.filter_map, Function.comp_def]

/-- Claim C4: a met alert is re-armed by an observation strictly above the
target (is_met reverts to false, no transition is emitted) and a later
observation at or below the target emits a transition again, so a new
dispatch occurs for that alert id. -/
theorem alert_rearm (reg : List Alert) (a : Alert) (o1 o2 : PriceObservation)
    (ha : a ∈ reg) (hmet : a.is_met = true)
    (hm1 : alertMatches a o1 = true) (hm2 : alertMatches a o2 = true)
    (h1 : a.target_price < o1.price) (h2 : o2.price ≤ a.target_price) :
    (evalAlert o1 a).2 = false ∧ (evalAlert o1 a).1.is_met = false ∧
    (evalAlert o2 (evalAlert o1 a).1).2 = true ∧
    (evalAlert o2 (evalAlert o1 a).1).1.is_met = true ∧
    a.id ∈ (evaluate (evaluate reg o1).1 o2).2 := by
  have hd1 : decide (o1.price ≤ a.target_price) = false := by
    simp [not_le.mpr h1]
  have e1 := evalAlert_of_matches o1 a hm1
  have hflag1 : (evalAlert o1 a).2 = false := by
    rw [e1.2, hmet, hd1]
    rfl
  have hmet1 : (evalAlert o1 a).1.is_met = false := by
    rw [e1.1]
    simpa using hd1
  have hm2a : alertMatches (evalAlert o1 a).1 o2 = true := by
    rw [evalAlert_matches_inv]; exact hm2
  have e2 := evalAlert_of_matches o2 (evalAlert o1 a).1 hm2a
  have htp := (evalAlert_fields o1 a).2.2.2.2.1
  have hd2 : decide (o2.price ≤ (evalAlert o1 a).1.target_price) = true := by
    rw [htp]
    simpa using h2
  have hflag2 : (evalAlert o2 (evalAlert o1 a).1).2 = true := by
    rw [e2.2, hmet1, hd2]
    rfl
  have hmet2 : (evalAlert o2 (evalAlert o1 a).1).1.is_met = true := by
    rw [e2.1]
    simpa using hd2
  refine ⟨hflag1, hmet1, hflag2, hmet2, ?_⟩
  have hmem1 : (evalAlert o1 a).1 ∈ (evaluate reg o1).1 := by
    rw [evaluate_fst]
    exact List.mem_map.mpr ⟨a, ha, rfl⟩
  have := mem_evaluate_snd_of_flag (evaluate reg o1).1 o2 (evalAlert o1 a).1
    hmem1 hflag2
  rwa [(evalAlert_fields o1 a).1] at this

/-- Witness for C4: the spec scenario with target 150, a price of 155
reverting the met state without dispatch, then 140 re-triggering. -/
theorem alert_rearm_witness :
    ((⟨1, 7, 2, 3, 150, true, some 9, 0⟩ : Alert).target_price <
        (⟨2, 3, 155, 5⟩ : PriceObservation).price) ∧
    ((⟨2, 3, 140, 6⟩ : PriceObservation).price ≤
        (⟨1, 7, 2, 3, 150, true, some 9, 0⟩ : Alert).target_price) ∧
    ((evalAlert ⟨2, 3, 155, 5⟩ ⟨1, 7, 2, 3, 150, true, some 9, 0⟩).2 = false ∧
      (evalAlert ⟨2, 3, 155, 5⟩ ⟨1, 7, 2, 3, 150, true, some 9, 0⟩).1.is_met = false ∧
      (evalAlert ⟨2, 3, 140, 6⟩
        (evalAlert ⟨2, 3, 155, 5⟩ ⟨1, 7, 2, 3, 150, true, some 9, 0⟩).1).2 = true ∧
      (evalAlert ⟨2, 3, 140, 6⟩
        (evalAlert ⟨2, 3, 155, 5⟩ ⟨1, 7, 2, 3, 150, true, some 9, 0⟩).1).1.is_met = true ∧
      (⟨1, 7, 2, 3, 150, true, some 9, 0⟩ : Alert).id ∈
        (evaluate (evaluate [⟨1, 7, 2, 3, 150, true, some 9, 0⟩] ⟨2, 3, 155, 5⟩).1
          ⟨2, 3, 140, 6⟩).2) :=
  ⟨by decide, by decide,
    alert_rearm [⟨1, 7, 2, 3, 150, true, some 9, 0⟩] ⟨1, 7, 2, 3, 150, true, some 9, 0⟩
      ⟨2, 3, 155, 5⟩ ⟨2, 3, 140, 6⟩ (by decide) (by decide) (by decide) (by decide)
      (by decide) (by decide)⟩

/-- Claim C10: adjustPrice clamps at zero; for every previous value and
every delta, the updated target price equals the maximum of zero and the
sum rounded to two decimal places, hence is never negative. -/
theorem adjustPrice_nonneg (prev delta : Rat) :
    adjustPrice prev delta = max 0 (roundTo2 (prev + delta)) ∧
    0 ≤ adjustPrice prev delta :=
  ⟨rfl, le_max_left 0 (roundTo2 (prev + delta))⟩

lemma alertMatches_lastUpdate (o : PriceObservation) (t : Option Nat) (a : Alert) :
    alertMatches { a with last_sent_at := t } o = alertMatches a o := rfl

lemma evalAlert_lastUpdate (o : PriceObservation) (t : Option Nat) (a : Alert) :
    evalAlert o { a with last_sent_at := t } =
      ({ (evalAlert o a).1 with last_sent_at := t }, (evalAlert o a).2) := by
  by_cases hm : alertMatches a o = true
  · simp [evalAlert, alertMatches_lastUpdate, hm]
  · simp [evalAlert, alertMatches_lastUpdate, hm]

lemma metTrace_lastUpdate (t : Option Nat) :
    ∀ (obs : List PriceObservation) (a : Alert),
      metTrace { a with last_sent_at := t } obs = metTrace a obs
  | [], _ => rfl
  | o :: rest, a => by
    simp only [metTrace, evalAlert_lastUpdate]
    rw [metTrace_lastUpdate t rest (evalAlert o a).1]

/-- Claim C2: along any sequence of Evaluator/Dispatcher steps for an
alert, the number of notification dispatches and the number of
last_sent_at writes are both exactly the number of false-to-true
transitions of the is_met flag; in particular a renewed met state without
an intervening unmet period never re-notifies. -/
theorem dispatch_once_per_met_transition (now : Nat) (a : Alert)
    (obs : List PriceObservation) :
    (runAlert now a obs).2.1 = countFlips a.is_met (metTrace a obs) ∧
    (runAlert now a obs).2.2 = countFlips a.is_met (metTrace a obs) := by
  induction obs generalizing a with
  | nil => exact ⟨rfl, rfl⟩
  | cons o rest ih =>
    have hflag := evalAlert_flag o a
    have hupd : metTrace { (evalAlert o a).1 with last_sent_at := some now } rest =
        metTrace (evalAlert o a).1 rest :=
      metTrace_lastUpdate (some now) rest (evalAlert o a).1
    have hmet : ({ (evalAlert o a).1 with last_sent_at := some now } : Alert).is_met =
        (evalAlert o a).1.is_met := rfl
    cases ht : (evalAlert o a).2 with
    | false =>
      have hif : (!a.is_met && (evalAlert o a).1.is_met) = false := by
        rw [← hflag]; exact ht
      have hstep : stepAlert now a o = ((evalAlert o a).1, false, 0) := by
        simp [stepAlert, ht]
      simp only [runAlert, metTrace, countFlips, hstep, hif]
      refine ⟨?_, ?_⟩
      · simpa using (ih (evalAlert o a).1).1
      · simpa using (ih (evalAlert o a).1).2
    | true =>
      have hif : (!a.is_met && (evalAlert o a).1.is_met) = true := by
        rw [← hflag]; exact ht
      have hstep : stepAlert now a o =
          ({ (evalAlert o a).1 with last_sent_at := some now }, true, 1) := by
        simp [stepAlert, ht]
      have hrec := ih { (evalAlert o a).1 with last_sent_at := some now }
      rw [hmet, hupd] at hrec
      simp only [runAlert, metTrace, countFlips, hstep, hif]
      refine ⟨?_, ?_⟩
      · rw [hrec.1]
      · rw [hrec.2]
        simp

/-- Claim C5: of two serialized executions of the atomic flip-and-claim for
the same unmet alert, exactly the first one wins the claim and proceeds to
dispatch; the loser gets false back, with no error surfaced. -/
theorem cas_exactly_one_dispatch (reg : List Alert) (i : Nat) (a : Alert)
    (hfind : reg.find? (fun b => b.id == i) = some a) (hunmet : a.is_met = false) :
    (claimAlert reg i).2 = true ∧ (claimAlert (claimAlert reg i).1 i).2 = false := by
  have hid : a.id = i := by simpa using List.find?_some hfind
  have h1 : claimAlert reg i =
      (reg.map (fun b => if b.id == i then { b with is_met := true } else b), true) := by
    unfold claimAlert
    rw [hfind]
    simp [hunmet]
  refine ⟨by rw [h1], ?_⟩
  rw [h1]
  have hfun : ((fun b : Alert => b.id == i) ∘
      fun b : Alert => if b.id == i then { b with is_met := true } else b) =
      fun b : Alert => b.id == i := by
    funext b
    by_cases hb : b.id = i <;> simp [hb]
  have hfind2 : (reg.map (fun b => if b.id == i then { b with is_met := true } else b)).find?
      (fun b => b.id == i) = some { a with is_met := true } := by
    rw [List.find?_map, hfun, hfind]
    simp [hid]
  unfold claimAlert
  rw [hfind2]
  simp

/-- Witness for C5: a single unmet alert, claimed twice in sequence; the
first claim wins, the second loses. -/
theorem cas_exactly_one_dispatch_witness :
    (([(⟨1, 7, 2, 3, 100, false, none, 0⟩ : Alert)].find? (fun b => b.id == 1)) =
        some (⟨1, 7, 2, 3, 100, false, none, 0⟩ : Alert)) ∧
    ((claimAlert [⟨1, 7, 2, 3, 100, false, none, 0⟩] 1).2 = true ∧
      (claimAlert (claimAlert [⟨1, 7, 2, 3, 100, false, none, 0⟩] 1).1 1).2 = false) :=
  ⟨by decide,
    cas_exactly_one_dispatch [⟨1, 7, 2, 3, 100, false, none, 0⟩] 1
      ⟨1, 7, 2, 3, 100, false, none, 0⟩ (by decide) (by decide)⟩

/-- Claim C7: a malformed raw observation is rejected with a
ValidationError and the Price Store is unchanged; a well-formed one is
never rejected and is appended to the store. -/
theorem ingest_validation (store : List PriceObservation) (r : RawObservation) :
    (wellFormed r = false → ingest store r = (store, Except.error "ValidationError")) ∧
    (wellFormed r = true → ∃ o, ingest store r = (store ++ [o], Except.ok o)) := by
  obtain ⟨c, m, p, d⟩ := r
  cases c <;> cases m <;> cases p <;> cases d <;>
    simp [wellFormed, ingest]

lemma dispatchFrom_last_iff (outcomes : Nat → SendOutcome) (base now : Nat) :
    ∀ (fuel k : Nat),
      (dispatchFrom outcomes base now k fuel).last_sent_at =
        if (dispatchFrom outcomes base now k fuel).delivered then some now else none
  | 0, _ => rfl
  | fuel + 1, k => by
    cases h : outcomes k with
    | success => simp [dispatchFrom, h]
    | permanent => simp [dispatchFrom, h]
    | transient =>
      have ih := dispatchFrom_last_iff outcomes base now fuel (k + 1)
      simp only [dispatchFrom, h]
      exact ih

lemma dispatchFrom_attempts_le (outcomes : Nat → SendOutcome) (base now : Nat) :
    ∀ (fuel k : Nat), (dispatchFrom outcomes base now k fuel).attempts ≤ fuel
  | 0, _ => Nat.le_refl 0
  | fuel + 1, k => by
    cases h : outcomes k with
    | success => simp [dispatchFrom, h]
    | permanent =>
      simp only [dispatchFrom, h]
      omega
    | transient =>
      have ih := dispatchFrom_attempts_le outcomes base now fuel (k + 1)
      simp only [dispatchFrom, h]
      omega

lemma dispatchFrom_delays (outcomes : Nat → SendOutcome) (base now : Nat) :
    ∀ (fuel k : Nat),
      (dispatchFrom outcomes base now k fuel).delays =
        (List.range (dispatchFrom outcomes base now k fuel).delays.length).map
          (fun j => base * 2 ^ (k + j))
  | 0, _ => rfl
  | fuel + 1, k => by
    cases h : outcomes k with
    | success => simp [dispatchFrom, h]
    | permanent => simp [dispatchFrom, h]
    | transient =>
      have ih := dispatchFrom_delays outcomes base now fuel (k + 1)
      simp only [dispatchFrom, h, List.length_cons]
      rw [List.range_succ_eq_map, List.map_cons, List.map_map]
      congr 1
      rw [ih]
      simp only [List.length_map, List.length_range]
      refine List.map_congr_left ?_
      intro j _
      show base * 2 ^ (k + 1 + j) = base * 2 ^ (k + (j + 1))
      rw [show k + 1 + j = k + (j + 1) by omega]

lemma dispatchFrom_permanent (outcomes : Nat → SendOutcome) (base now : Nat) :
    ∀ (fuel k d : Nat),
      (∀ j, j < d → outcomes (k + j) = SendOutcome.transient) →
      outcomes (k + d) = SendOutcome.permanent → d < fuel →
      (dispatchFrom outcomes base now k fuel).delivered = false ∧
      (dispatchFrom outcomes base now k fuel).attempts = d + 1 ∧
      (dispatchFrom outcomes base now k fuel).last_sent_at = none ∧
      (dispatchFrom outcomes base now k fuel).errorSurfaced = true
  | 0, _, d, _, _, hd => absurd hd (Nat.not_lt_zero d)
  | fuel + 1, k, 0, _, hP, _ => by
    have hk : outcomes k = SendOutcome.permanent := by simpa using hP
    simp [dispatchFrom, hk]
  | fuel + 1, k, e + 1, hT, hP, hd => by
    have hk : outcomes k = SendOutcome.transient := by
      simpa using hT 0 (Nat.succ_pos e)
    have hT1 : ∀ j, j < e → outcomes (k + 1 + j) = SendOutcome.transient := by
      intro j hj
      have := hT (j + 1) (by omega)
      rwa [show k + (j + 1) = k + 1 + j by omega] at this
    have hP1 : outcomes (k + 1 + e) = SendOutcome.permanent := by
      rwa [show k + 1 + e = k + (e + 1) by omega]
    have ih := dispatchFrom_permanent outcomes base now fuel (k + 1) e hT1 hP1
      (by omega)
    simp only [dispatchFrom, hk]
    exact ⟨ih.1, by rw [ih.2.1], ih.2.2.1, ih.2.2.2⟩

/-- Claim C6: for every dispatch, last_sent_at is written exactly when the
send is confirmed (delivered); the number of attempts is bounded by the
budget; the backoff delays grow exponentially (delay j is base times 2 to
the j); and a permanent failure at attempt k after k transient failures
leaves last_sent_at unset, surfaces an error, and performs no retry after
the failing attempt (exactly k plus one attempts are made). -/
theorem dispatcher_retry_contract (outcomes : Nat → SendOutcome)
    (maxAttempts base now k : Nat)
    (hT : ∀ j, j < k → outcomes j = SendOutcome.transient)
    (hP : outcomes k = SendOutcome.permanent)
    (hk : k < maxAttempts) :
    (∀ (f : Nat → SendOutcome) (m b t : Nat),
      (dispatch f m b t).last_sent_at =
        if (dispatch f m b t).delivered then some t else none) ∧
    (∀ (f : Nat → SendOutcome) (m b t : Nat), (dispatch f m b t).attempts ≤ m) ∧
    (∀ (f : Nat → SendOutcome) (m b t : Nat),
      (dispatch f m b t).delays =
        (List.range (dispatch f m b t).delays.length).map (fun j => b * 2 ^ j)) ∧
    (dispatch outcomes maxAttempts base now).delivered = false ∧
    (dispatch outcomes maxAttempts base now).last_sent_at = none ∧
    (dispatch outcomes maxAttempts base now).errorSurfaced = true ∧
    (dispatch outcomes maxAttempts base now).attempts = k + 1 := by
  have hperm := dispatchFrom_permanent outcomes base now maxAttempts 0 k
    (fun j hj => by simpa using hT j hj) (by simpa using hP) hk
  refine ⟨?_, ?_, ?_, hperm.1, hperm.2.2.1, hperm.2.2.2, hperm.2.1⟩
  · intro f m b t
    exact dispatchFrom_last_iff f b t m 0
  · intro f m b t
    exact dispatchFrom_attempts_le f b t m 0
  · intro f m b t
    have h := dispatchFrom_delays f b t m 0
    simpa using h

/-- Witness for C6: with a transient failure on attempt 0 and a permanent
failure on attempt 1 out of a budget of 3, exactly two attempts happen,
last_sent_at stays unset and an error is surfaced. -/
theorem dispatcher_retry_contract_witness :
    (dispatch (fun j => if j = 0 then SendOutcome.transient else SendOutcome.permanent)
      3 1 100).delivered = false ∧
    (dispatch (fun j => if j = 0 then SendOutcome.transient else SendOutcome.permanent)
      3 1 100).last_sent_at = none ∧
    (dispatch (fun j => if j = 0 then SendOutcome.transient else SendOutcome.permanent)
      3 1 100).errorSurfaced = true ∧
    (dispatch (fun j => if j = 0 then SendOutcome.transient else SendOutcome.permanent)
      3 1 100).attempts = 1 + 1 := by
  have h := dispatcher_retry_contract
    (fun j => if j = 0 then SendOutcome.transient else SendOutcome.permanent)
    3 1 100 1 (by decide) (by decide) (by decide)
  exact ⟨h.2.2.2.1, h.2.2.2.2.1, h.2.2.2.2.2.1, h.2.2.2.2.2.2⟩

/-- Witness for C7: an observation missing its price field is rejected
leaving the store empty; a complete observation is persisted. -/
theorem ingest_validation_witness :
    wellFormed ⟨some 2, some 3, none, some 5⟩ = false ∧
    ingest [] ⟨some 2, some 3, none, some 5⟩ = ([], Except.error "ValidationError") ∧
    wellFormed ⟨some 2, some 3, some 100, some 5⟩ = true ∧
    ∃ o, ingest [] ⟨some 2, some 3, some 100, some 5⟩ = ([] ++ [o], Except.ok o) :=
  ⟨by decide,
    (ingest_validation [] ⟨some 2, some 3, none, some 5⟩).1 (by decide),
    by decide,
    (ingest_validation [] ⟨some 2, some 3, some 100, some 5⟩).2 (by decide)⟩

/-- Counterexample to C8 as stated: on the input consisting of two plus
signs followed by 251911111111, the digits-only cleaned sequence starts
with 251, so the claim demands a +251 result, yet normalizePhoneNumber
throws, because the code keeps interior plus signs and strips only one
leading plus. -/
theorem normalizePhone_claim_counterexample :
    ("++251911111111".data.filter Char.isDigit).take 3 = ['2', '5', '1'] ∧
    ∀ s, normalizePhoneNumber "++251911111111" ≠ Except.ok s := by
  refine ⟨by decide, fun s h => ?_⟩
  have he : normalizePhoneNumber "++251911111111" =
      Except.error "Invalid phone number format: ++251911111111" := by rfl
  rw [he] at h
  exact Except.noConfusion h

/-- Claim C8 amended: with cleaning defined as the code does it (drop every
character that is neither a digit nor a plus sign, then strip one leading
plus sign), normalizePhoneNumber succeeds with a +251-prefixed string
exactly when the cleaned sequence starts with 251, starts with 0, or has
exactly nine characters, and throws otherwise; validatePhoneNumber is true
exactly when normalizePhoneNumber does not throw. -/
theorem normalizePhone_amended (phone : String) :
    ((∃ s, normalizePhoneNumber phone = Except.ok s) ↔
      ((cleanedPhone phone).take 3 = ['2', '5', '1'] ∨
        (cleanedPhone phone).take 1 = ['0'] ∨ (cleanedPhone phone).length = 9)) ∧
    (∀ s, normalizePhoneNumber phone = Except.ok s →
      s.data.take 4 = ['+', '2', '5', '1']) ∧
    (validatePhoneNumber phone = true ↔ ∃ s, normalizePhoneNumber phone = Except.ok s) := by
  refine ⟨?_, ?_, ?_⟩
  · simp only [normalizePhoneNumber]
    split_ifs with h1 h2 h3
    · simp [h1]
    · simp [h1, h2]
    · simp [h1, h2, h3]
    · simp [h1, h2, h3]
  · intro s hs
    simp only [normalizePhoneNumber] at hs
    split_ifs at hs with h1 h2 h3
    · cases hs
      simp [List.take_succ_cons, h1]
    · cases hs
      rfl
    · cases hs
      rfl
  · unfold validatePhoneNumber
    cases h : normalizePhoneNumber phone <;> simp [h]

/-- Witness for C8 amended: the input 0911234567 cleans to a
zero-leading sequence, so normalization succeeds. -/
theorem normalizePhone_amended_witness :
    (cleanedPhone "0911234567").take 1 = ['0'] ∧
    ∃ s, normalizePhoneNumber "0911234567" = Except.ok s :=
  ⟨by decide,
    (normalizePhone_amended "0911234567").1.mpr (Or.inr (Or.inl (by decide)))⟩

/-- Claim C9: the client-side post-processing of fetchPriceHistory returns
a permutation of exactly the fetched records whose date lies in the
inclusive window from (now minus timeRange days) to now, sorted by
non-decreasing date; a record appears in the result exactly when it was
fetched and lies in the window. -/
theorem fetchPriceHistory_window_sorted (now : Int) (timeRange : Nat)
    (prices : List PriceData) :
    (fetchPriceHistoryPost now timeRange prices).Perm
      (prices.filter (fun p => decide (now - timeRange * msPerDay ≤ p.price_date) &&
        decide (p.price_date ≤ now))) ∧
    List.Pairwise (fun a b : PriceData => a.price_date ≤ b.price_date)
      (fetchPriceHistoryPost now timeRange prices) ∧
    (∀ p, p ∈ fetchPriceHistoryPost now timeRange prices ↔
      (p ∈ prices ∧ now - timeRange * msPerDay ≤ p.price_date ∧ p.price_date ≤ now)) := by
  have hperm : (fetchPriceHistoryPost now timeRange prices).Perm
      (prices.filter (fun p => decide (now - timeRange * msPerDay ≤ p.price_date) &&
        decide (p.price_date ≤ now))) := by
    simp only [fetchPriceHistoryPost]
    exact List.mergeSort_perm _ _
  have hsorted : List.Pairwise
      (fun a b : PriceData => decide (a.price_date ≤ b.price_date) = true)
      (fetchPriceHistoryPost now timeRange prices) := by
    simp only [fetchPriceHistoryPost]
    exact List.sorted_mergeSort
      (fun a b c hab hbc => by
        simp only [decide_eq_true_eq] at *
        exact le_trans hab hbc)
      (fun a b => by
        simp only [Bool.or_eq_true, decide_eq_true_eq]
        exact le_total a.price_date b.price_date)
      _
  refine ⟨hperm, hsorted.imp (fun h => of_decide_eq_true h), ?_⟩
  intro p
  rw [hperm.mem_iff, List.mem_filter]
  simp

end GebeyaAlert

